import Mathlib

/-!
Verification of the `gaussian-processes` notebooks.

The repository holds two notebooks, `gpytorch-LOVE.ipynb` (exact GP
regression on the skillcraft dataset, with exact versus LOVE-approximated
predictive covariances) and `deep-kernel-learning.ipynb` (DKL classification
on CIFAR10/100).  This file is a shallow embedding of the harness code of
those notebooks: values that torch stores as float tensors are modelled as
rationals, a matrix as its list of columns (the notebook operates on the
matrix column-wise, via `min(0)` / `max(0)`), and the side effects of the
training loops (prints, gradient clearing, optimizer steps) as explicit
event traces.
-/

namespace GaussianProcesses

/-! ## Data preparation (gpytorch-LOVE.ipynb, cell-8 and cell-9)

`data = torch.Tensor(loadmat(DATA)['data'])` is a matrix; the notebook then
computes, column-wise,
  `X = data[:, :-1]`
  `X = X - X.min(0)[0]`
  `X = 2 * (X / X.max(0)[0]) - 1`
  `y = data[:, -1]`
A matrix is embedded as the list of its columns, each a `List ℚ`. -/

/-- Column-wise minimum, as the reduction `X.min(0)` computes it on one
column.  torch raises on an empty reduction; the `[]` case is a junk value
never relied upon (all theorems assume nonempty columns). -/
def colMin : List ℚ → ℚ
  | [] => 0
  | x :: xs => xs.foldl min x

/-- Column-wise maximum, as the reduction `X.max(0)` computes it on one
column. -/
def colMax : List ℚ → ℚ
  | [] => 0
  | x :: xs => xs.foldl max x

/-- `X = X - X.min(0)[0]` applied to one column: subtract the observed
column minimum from every entry. -/
def shiftCol (c : List ℚ) : List ℚ :=
  c.map (fun v => v - colMin c)

/-- `X = 2 * (X / X.max(0)[0]) - 1` applied to one (already shifted)
column: the divisor is the maximum of the shifted column.  Division is the
total division of `ℚ` (so a zero divisor yields `0` where float arithmetic
would yield NaN; the division-by-zero hazard is stated separately as the
divisor being `0`). -/
def scaleCol (c : List ℚ) : List ℚ :=
  let s := shiftCol c
  s.map (fun v => 2 * (v / colMax s) - 1)

/-- `X = data[:, :-1]`: all columns but the last are the features. -/
def featureCols (d : List (List ℚ)) : List (List ℚ) :=
  d.dropLast

/-- `y = data[:, -1]`: the last column is the regression target, taken from
the raw matrix and never rescaled. -/
def targetCol (d : List (List ℚ)) : List ℚ :=
  d.getLastD []

/-- The normalized feature matrix: every feature column shifted by its
minimum and scaled by the shifted maximum. -/
def normalizedX (d : List (List ℚ)) : List (List ℚ) :=
  (featureCols d).map scaleCol

/-- The full data-preparation step of cell-8: the pair `(X, y)` the rest of
the notebook consumes. -/
def prepared (d : List (List ℚ)) : List (List ℚ) × List ℚ :=
  (normalizedX d, targetCol d)

/-! ## Train/test split (gpytorch-LOVE.ipynb, cell-9)

  `train_n = int(math.floor(0.4*len(X)))`
  `train_x = X[:train_n, :]` ... `test_x = X[train_n:, :]`      -/

/-- `train_n = int(math.floor(0.4*len(X)))`. -/
def trainN (n : ℕ) : ℕ :=
  Nat.floor ((2 / 5 : ℚ) * n)

/-- `X[:train_n]` on the list of rows. -/
def trainRows {α : Type} (rows : List α) : List α :=
  rows.take (trainN rows.length)

/-- `X[train_n:]` on the list of rows. -/
def testRows {α : Type} (rows : List α) : List α :=
  rows.drop (trainN rows.length)

/-! ### Helper lemmas on column reductions -/

lemma foldl_min_map {f : ℚ → ℚ} (hf : Monotone f) (a : ℚ) (l : List ℚ) :
    (l.map f).foldl min (f a) = f (l.foldl min a) := by
  induction l generalizing a with
  | nil => rfl
  | cons x xs ih =>
    simp only [List.map_cons, List.foldl_cons]
    rw [← hf.map_min, ih]

lemma foldl_max_map {f : ℚ → ℚ} (hf : Monotone f) (a : ℚ) (l : List ℚ) :
    (l.map f).foldl max (f a) = f (l.foldl max a) := by
  induction l generalizing a with
  | nil => rfl
  | cons x xs ih =>
    simp only [List.map_cons, List.foldl_cons]
    rw [← hf.map_max, ih]

lemma colMin_map {f : ℚ → ℚ} (hf : Monotone f) {c : List ℚ} (hc : c ≠ []) :
    colMin (c.map f) = f (colMin c) := by
  cases c with
  | nil => exact absurd rfl hc
  | cons x xs => simp only [List.map_cons, colMin]; exact foldl_min_map hf x xs

lemma colMax_map {f : ℚ → ℚ} (hf : Monotone f) {c : List ℚ} (hc : c ≠ []) :
    colMax (c.map f) = f (colMax c) := by
  cases c with
  | nil => exact absurd rfl hc
  | cons x xs => simp only [List.map_cons, colMax]; exact foldl_max_map hf x xs

lemma monotone_sub_const (k : ℚ) : Monotone (fun v : ℚ => v - k) :=
  fun _ _ h => sub_le_sub_right h k

lemma shiftCol_ne_nil {c : List ℚ} (hc : c ≠ []) : shiftCol c ≠ [] := by
  simpa [shiftCol] using hc

lemma colMin_shiftCol {c : List ℚ} (hc : c ≠ []) : colMin (shiftCol c) = 0 := by
  rw [shiftCol, colMin_map (monotone_sub_const _) hc, sub_self]

lemma colMax_shiftCol {c : List ℚ} (hc : c ≠ []) :
    colMax (shiftCol c) = colMax c - colMin c := by
  rw [shiftCol, colMax_map (monotone_sub_const _) hc]

lemma monotone_scale {m : ℚ} (hm : 0 ≤ m) :
    Monotone (fun v : ℚ => 2 * (v / m) - 1) := by
  rcases eq_or_lt_of_le hm with h | h
  · intro a b _
    simp [← h]
  · intro a b hab
    have h1 : a / m ≤ b / m := by gcongr
    nlinarith

/-- After shifting by the minimum and scaling by the shifted maximum, a
nonconstant column attains minimum `-1` and maximum `1`. -/
lemma scaleCol_min_max {c : List ℚ} (hne : c ≠ []) (hlt : colMin c < colMax c) :
    colMin (scaleCol c) = -1 ∧ colMax (scaleCol c) = 1 := by
  have hm : colMax (shiftCol c) = colMax c - colMin c := colMax_shiftCol hne
  have hmpos : 0 < colMax (shiftCol c) := by rw [hm]; linarith
  have hmono : Monotone (fun v : ℚ => 2 * (v / colMax (shiftCol c)) - 1) :=
    monotone_scale hmpos.le
  have hsne : shiftCol c ≠ [] := shiftCol_ne_nil hne
  constructor
  · rw [scaleCol, colMin_map hmono hsne, colMin_shiftCol hne]
    norm_num
  · rw [scaleCol, colMax_map hmono hsne]
    rw [div_self hmpos.ne']
    norm_num

/-! ### Claim theorems: normalization and split -/

/-- Claim C2: after the feature-normalization step every feature column of
`X` has minimum exactly `-1` and maximum exactly `1` (exact in this rational
embedding), the scaling using the observed per-feature minimum and maximum,
and the last column (the regression target `y`) is taken from the raw data
unscaled.  The hypothesis that every feature column is nonempty and
nonconstant is the precondition under which the divisor is nonzero (its
necessity is the subject of `c9_constant_column_divides_by_zero`). -/
theorem c2_feature_normalization_bounds (d : List (List ℚ))
    (hcols : ∀ c ∈ featureCols d, c ≠ [] ∧ colMin c < colMax c) :
    (∀ c ∈ normalizedX d, colMin c = -1 ∧ colMax c = 1) ∧
      (prepared d).2 = d.getLastD [] := by
  refine ⟨?_, rfl⟩
  intro c hc
  rw [normalizedX, List.mem_map] at hc
  obtain ⟨c0, hc0, rfl⟩ := hc
  obtain ⟨hne, hlt⟩ := hcols c0 hc0
  exact scaleCol_min_max hne hlt

theorem c2_witness :
    (∀ c ∈ featureCols [[(0 : ℚ), 4], [(7 : ℚ), 9]], c ≠ [] ∧ colMin c < colMax c) ∧
      ((∀ c ∈ normalizedX [[(0 : ℚ), 4], [(7 : ℚ), 9]], colMin c = -1 ∧ colMax c = 1) ∧
        (prepared [[(0 : ℚ), 4], [(7 : ℚ), 9]]).2 = [[(0 : ℚ), 4], [(7 : ℚ), 9]].getLastD []) :=
  ⟨by decide, c2_feature_normalization_bounds _ (by decide)⟩

/-- Claim C9: the normalization divides by the per-column maximum of the
shifted column with no guard.  For a constant feature column the divisor is
`0` — a division by zero, which float arithmetic turns into NaN entries; in
this total-division embedding every scaled entry becomes `2 * (v / 0) - 1 =
-1`, so the `[-1, 1]` guarantee fails (the column maximum is `-1`, not `1`).
Hence the scaling guarantee needs the unstated precondition that every
feature column takes at least two distinct values. -/
theorem c9_constant_column_divides_by_zero (c : List ℚ) (hne : c ≠ [])
    (hconst : colMin c = colMax c) :
    colMax (shiftCol c) = 0 ∧
      colMax (scaleCol c) = -1 ∧ colMax (scaleCol c) ≠ 1 := by
  have h0 : colMax (shiftCol c) = 0 := by
    rw [colMax_shiftCol hne, hconst, sub_self]
  have hmono : Monotone (fun v : ℚ => 2 * (v / colMax (shiftCol c)) - 1) := by
    rw [h0]
    intro a b _
    simp
  have hmax : colMax (scaleCol c) = -1 := by
    rw [scaleCol, colMax_map hmono (shiftCol_ne_nil hne), h0, div_zero]
    norm_num
  exact ⟨h0, hmax, by rw [hmax]; norm_num⟩

theorem c9_witness :
    ([(3 : ℚ), 3] ≠ ([] : List ℚ) ∧ colMin [(3 : ℚ), 3] = colMax [(3 : ℚ), 3]) ∧
      (colMax (shiftCol [(3 : ℚ), 3]) = 0 ∧
        colMax (scaleCol [(3 : ℚ), 3]) = -1 ∧ colMax (scaleCol [(3 : ℚ), 3]) ≠ 1) :=
  ⟨⟨by decide, by decide⟩,
    c9_constant_column_divides_by_zero [(3 : ℚ), 3] (by decide) (by decide)⟩

lemma trainN_eq (n : ℕ) : trainN n = 2 * n / 5 := by
  have h : (2 / 5 : ℚ) * n = ((2 * n : ℕ) : ℚ) / ((5 : ℕ) : ℚ) := by
    push_cast
    ring
  rw [trainN, h, Nat.floor_div_nat, Nat.floor_natCast]

lemma trainN_le (n : ℕ) : trainN n ≤ n := by
  rw [trainN_eq]
  calc 2 * n / 5 ≤ 5 * n / 5 := Nat.div_le_div_right (by omega)
    _ = n := by omega

/-- Claim C3: for every dataset of `N` rows the split takes the first
`floor(0.4 * N)` rows as the training partition and the remaining rows as
the test partition; the partitions are disjoint (their concatenation, in
order, is exactly the original list, so each position lands in exactly one
side) and their sizes sum to `N`. -/
theorem c3_train_test_split {α : Type} (rows : List α) :
    trainN rows.length = 2 * rows.length / 5 ∧
      (trainRows rows).length = trainN rows.length ∧
      (testRows rows).length = rows.length - trainN rows.length ∧
      trainRows rows ++ testRows rows = rows ∧
      (trainRows rows).length + (testRows rows).length = rows.length := by
  refine ⟨trainN_eq _, ?_, ?_, ?_, ?_⟩
  · rw [trainRows, List.length_take]
    exact min_eq_left (trainN_le _)
  · rw [testRows, List.length_drop]
  · exact List.take_append_drop _ rows
  · rw [trainRows, testRows, List.length_take, List.length_drop]
    have := trainN_le rows.length
    omega

/-! ## Training loops

`gpytorch-LOVE.ipynb` cell-15:
```
def train(n):
    pbar = tnrange(n)
    for i in pbar:
        optimizer.zero_grad()
        output = model(train_x)
        loss = -1 * mll(output, train_y)
        loss.backward()
        print(f"...i+1.../...n... | Loss: ...loss.item()...")
        optimizer.step()
```
`deep-kernel-learning.ipynb` cell-20 iterates the same body over the
batches of `train_loader`, printing only when `(batch_idx+1) % 50 == 0`.

The loop's side effects are recorded as an event trace; the model/likelihood
parameter state is abstract (`P`), the loss functional `mll` a function of
it, and the optimizer update a function `stepF` applied at `optimizer.step()`.
-/

/-- One observable event of a training loop. -/
inductive Ev : Type where
  | zeroGrad : Ev
  | forwardLoss : Ev
  | backprop : Ev
  | printLoss : ℕ → ℕ → ℚ → Ev
  | printEpochLoss : ℕ → ℕ → ℕ → ℚ → Ev
  | optStep : Ev
deriving DecidableEq

/-- The mutable state the loop threads: parameters, whether gradients are
currently accumulated, and how many optimizer steps have run. -/
structure TState (P : Type) where
  params : P
  gradAccum : Bool
  steps : ℕ
deriving DecidableEq

def isZeroGrad : Ev → Bool
  | .zeroGrad => true
  | _ => false

def isForwardLoss : Ev → Bool
  | .forwardLoss => true
  | _ => false

def isBackprop : Ev → Bool
  | .backprop => true
  | _ => false

def isOptStep : Ev → Bool
  | .optStep => true
  | _ => false

/-- A progress line of either notebook's training loop. -/
def isProgressLine : Ev → Bool
  | .printLoss _ _ _ => true
  | .printEpochLoss _ _ _ _ => true
  | _ => false

def countEv (p : Ev → Bool) (l : List Ev) : ℕ :=
  l.countP p

/-- One iteration `i` of `train(n)` in gpytorch-LOVE.ipynb cell-15, in
source order: `optimizer.zero_grad()`; `output = model(train_x)`;
`loss = -1 * mll(output, train_y)`; `loss.backward()`; the per-iteration
print (1-based index, total, loss); `optimizer.step()`. -/
def loveIter {P : Type} (mll : P → ℚ) (stepF : P → P) (n i : ℕ)
    (s : TState P) : TState P × List Ev :=
  let s1 : TState P := { s with gradAccum := false }
  let loss : ℚ := -1 * mll s1.params
  let s2 : TState P := { s1 with gradAccum := true }
  let s3 : TState P := { s2 with params := stepF s2.params, steps := s2.steps + 1 }
  (s3, [Ev.zeroGrad, Ev.forwardLoss, Ev.backprop, Ev.printLoss (i + 1) n loss,
    Ev.optStep])

/-- `for i in range(n)` unrolled: `k` iterations remain, `i` is the current
index. -/
def loveTrainFrom {P : Type} (mll : P → ℚ) (stepF : P → P) (n : ℕ) :
    ℕ → ℕ → TState P → TState P × List Ev
  | 0, _, s => (s, [])
  | k + 1, i, s =>
    let r1 := loveIter mll stepF n i s
    let r2 := loveTrainFrom mll stepF n k (i + 1) r1.1
    (r2.1, r1.2 ++ r2.2)

/-- `train(n)` of gpytorch-LOVE.ipynb cell-15: the final state and the full
event trace, starting from fresh parameters `p0` with no accumulated
gradients and zero optimizer steps. -/
def loveTrain {P : Type} (mll : P → ℚ) (stepF : P → P) (n : ℕ) (p0 : P) :
    TState P × List Ev :=
  loveTrainFrom mll stepF n n 0 ⟨p0, false, 0⟩

/-- One batch iteration of `train(epoch)` in deep-kernel-learning.ipynb
cell-20: same body, but the progress line is printed only when
`(batch_idx + 1) % 50 == 0`. -/
def dklIter {Q B : Type} (mll : Q → B → ℚ) (stepF : Q → Q)
    (epoch nBatches idx : ℕ) (b : B) (s : TState Q) : TState Q × List Ev :=
  let s1 : TState Q := { s with gradAccum := false }
  let loss : ℚ := -1 * mll s1.params b
  let s2 : TState Q := { s1 with gradAccum := true }
  let printed : List Ev :=
    if (idx + 1) % 50 = 0 then [Ev.printEpochLoss epoch (idx + 1) nBatches loss]
    else []
  let s3 : TState Q := { s2 with params := stepF s2.params, steps := s2.steps + 1 }
  (s3, [Ev.zeroGrad, Ev.forwardLoss, Ev.backprop] ++ printed ++ [Ev.optStep])

/-- `for batch_idx, (data, target) in enumerate(pbar)` unrolled: `idx` is
the current enumeration index. -/
def dklGo {Q B : Type} (mll : Q → B → ℚ) (stepF : Q → Q)
    (epoch nBatches : ℕ) : ℕ → List B → TState Q → TState Q × List Ev
  | _, [], s => (s, [])
  | idx, b :: rest, s =>
    let r1 := dklIter mll stepF epoch nBatches idx b s
    let r2 := dklGo mll stepF epoch nBatches (idx + 1) rest r1.1
    (r2.1, r1.2 ++ r2.2)

/-- `train(epoch)` of deep-kernel-learning.ipynb cell-20, run over the
batch list of the train loader. -/
def dklTrain {Q B : Type} (mll : Q → B → ℚ) (stepF : Q → Q) (epoch : ℕ)
    (batches : List B) (q0 : Q) : TState Q × List Ev :=
  dklGo mll stepF epoch batches.length 0 batches ⟨q0, false, 0⟩


/-! ### Loop lemmas -/

lemma countP_range_succ_shift (idx k : ℕ) :
    (List.range (k + 1)).countP (fun j => (idx + j + 1) % 50 == 0) =
      (List.range k).countP (fun j => (idx + 1 + j + 1) % 50 == 0) +
        (if (idx + 1) % 50 = 0 then 1 else 0) := by
  rw [List.range_succ_eq_map, List.countP_cons, List.countP_map]
  have h1 : ((fun j => (idx + j + 1) % 50 == 0) ∘ Nat.succ) =
      fun j => (idx + 1 + j + 1) % 50 == 0 := by
    funext j
    simp only [Function.comp_apply]
    congr 1
    omega
  rw [h1]
  congr 1
  simp [Nat.add_zero]

lemma loveTrainFrom_counts {P : Type} (mll : P → ℚ) (stepF : P → P) (n : ℕ) :
    ∀ (k i : ℕ) (s : TState P),
      (loveTrainFrom mll stepF n k i s).1.steps = s.steps + k ∧
        countEv isZeroGrad (loveTrainFrom mll stepF n k i s).2 = k ∧
        countEv isForwardLoss (loveTrainFrom mll stepF n k i s).2 = k ∧
        countEv isBackprop (loveTrainFrom mll stepF n k i s).2 = k ∧
        countEv isOptStep (loveTrainFrom mll stepF n k i s).2 = k ∧
        countEv isProgressLine (loveTrainFrom mll stepF n k i s).2 = k
  | 0, _, _ => by simp [loveTrainFrom, countEv]
  | k + 1, i, s => by
    obtain ⟨h1, h2, h3, h4, h5, h6⟩ :=
      loveTrainFrom_counts mll stepF n k (i + 1) (loveIter mll stepF n i s).1
    have hsteps : (loveIter mll stepF n i s).1.steps = s.steps + 1 := rfl
    have hsplit :
        loveTrainFrom mll stepF n (k + 1) i s =
          ((loveTrainFrom mll stepF n k (i + 1) (loveIter mll stepF n i s).1).1,
            (loveIter mll stepF n i s).2 ++
              (loveTrainFrom mll stepF n k (i + 1) (loveIter mll stepF n i s).1).2) := rfl
    rw [hsplit]
    have hblocks : ∀ p : Ev → Bool,
        List.countP p ((loveIter mll stepF n i s).2) = List.countP p
          [Ev.zeroGrad, Ev.forwardLoss, Ev.backprop,
            Ev.printLoss (i + 1) n (-1 * mll s.params), Ev.optStep] :=
      fun _ => rfl
    simp only [countEv, List.countP_append] at h2 h3 h4 h5 h6 ⊢
    rw [hsteps] at h1
    refine ⟨by rw [h1]; omega, ?_, ?_, ?_, ?_, ?_⟩ <;>
      rw [hblocks] <;>
      simp [List.countP_cons, isZeroGrad, isForwardLoss, isBackprop, isOptStep,
        isProgressLine, h2, h3, h4, h5, h6, countEv] <;>
      omega

lemma loveTrainFrom_filter {P : Type} (mll : P → ℚ) (stepF : P → P) (n : ℕ) :
    ∀ (k i : ℕ) (s : TState P),
      ((loveTrainFrom mll stepF n k i s).2).filter isProgressLine =
        (List.range k).map
          (fun j => Ev.printLoss (i + j + 1) n (-1 * mll (stepF^[j] s.params)))
  | 0, _, _ => rfl
  | k + 1, i, s => by
    have ih := loveTrainFrom_filter mll stepF n k (i + 1) (loveIter mll stepF n i s).1
    have hparams : (loveIter mll stepF n i s).1.params = stepF s.params := rfl
    have hblock : ((loveIter mll stepF n i s).2).filter isProgressLine =
        [Ev.printLoss (i + 1) n (-1 * mll s.params)] := rfl
    have hsplit :
        (loveTrainFrom mll stepF n (k + 1) i s).2 =
          (loveIter mll stepF n i s).2 ++
            (loveTrainFrom mll stepF n k (i + 1) (loveIter mll stepF n i s).1).2 := rfl
    rw [hsplit, List.filter_append, hblock, ih, hparams, List.range_succ_eq_map]
    simp only [List.map_cons, List.map_map, Function.iterate_zero_apply,
      Nat.add_zero, List.singleton_append]
    congr 1
    apply List.map_congr_left
    intro j _
    simp only [Function.comp_apply, Function.iterate_succ_apply]
    congr 2
    omega

lemma dklGo_counts {Q B : Type} (mll : Q → B → ℚ) (stepF : Q → Q)
    (epoch nBatches : ℕ) :
    ∀ (bs : List B) (idx : ℕ) (s : TState Q),
      (dklGo mll stepF epoch nBatches idx bs s).1.steps = s.steps + bs.length ∧
        countEv isZeroGrad (dklGo mll stepF epoch nBatches idx bs s).2 = bs.length ∧
        countEv isForwardLoss (dklGo mll stepF epoch nBatches idx bs s).2 = bs.length ∧
        countEv isBackprop (dklGo mll stepF epoch nBatches idx bs s).2 = bs.length ∧
        countEv isOptStep (dklGo mll stepF epoch nBatches idx bs s).2 = bs.length ∧
        countEv isProgressLine (dklGo mll stepF epoch nBatches idx bs s).2 =
          (List.range bs.length).countP (fun j => (idx + j + 1) % 50 == 0)
  | [], _, _ => by simp [dklGo, countEv]
  | b :: rest, idx, s => by
    obtain ⟨h1, h2, h3, h4, h5, h6⟩ :=
      dklGo_counts mll stepF epoch nBatches rest (idx + 1)
        (dklIter mll stepF epoch nBatches idx b s).1
    have hsteps : (dklIter mll stepF epoch nBatches idx b s).1.steps = s.steps + 1 := rfl
    have hsplit :
        dklGo mll stepF epoch nBatches idx (b :: rest) s =
          ((dklGo mll stepF epoch nBatches (idx + 1) rest
              (dklIter mll stepF epoch nBatches idx b s).1).1,
            (dklIter mll stepF epoch nBatches idx b s).2 ++
              (dklGo mll stepF epoch nBatches (idx + 1) rest
                (dklIter mll stepF epoch nBatches idx b s).1).2) := rfl
    rw [hsplit]
    have hblock :
        (dklIter mll stepF epoch nBatches idx b s).2 =
          [Ev.zeroGrad, Ev.forwardLoss, Ev.backprop] ++
            (if (idx + 1) % 50 = 0 then
              [Ev.printEpochLoss epoch (idx + 1) nBatches (-1 * mll s.params b)]
            else []) ++ [Ev.optStep] := rfl
    simp only [countEv, List.countP_append] at h2 h3 h4 h5 h6 ⊢
    rw [hsteps] at h1
    refine ⟨by rw [h1]; simp [List.length_cons]; omega, ?_, ?_, ?_, ?_, ?_⟩ <;>
      rw [hblock] <;>
      by_cases hmod : (idx + 1) % 50 = 0 <;>
      simp only [if_pos, if_neg, hmod, if_true, if_false, List.countP_append,
        List.countP_cons, List.countP_nil, List.length_cons] <;>
      simp [isZeroGrad, isForwardLoss, isBackprop, isOptStep, isProgressLine,
        h2, h3, h4, h5, h6, countEv, countP_range_succ_shift, hmod] <;>
      omega

/-! ### Claim theorems: training loops -/

/-- Claim C1: for every configured iteration count the training loops run
exactly that many iterations — in `gpytorch-LOVE.ipynb`, `train(n)` clears
the accumulated gradients, recomputes the loss, back-propagates and applies
exactly one optimizer step `n` times over; in `deep-kernel-learning.ipynb`,
`train(epoch)` does the same once per batch of the loader.  The statement is
universally quantified over the loss functional and the optimizer update,
so the iteration count never depends on the loss values: there is no
convergence check and no early stopping. -/
theorem c1_training_loop_runs_exactly_n_steps {P Q B : Type} (mll : P → ℚ)
    (stepF : P → P) (n : ℕ) (p0 : P) (mllD : Q → B → ℚ) (stepD : Q → Q)
    (epoch : ℕ) (batches : List B) (q0 : Q) :
    ((loveTrain mll stepF n p0).1.steps = n ∧
      countEv isZeroGrad (loveTrain mll stepF n p0).2 = n ∧
      countEv isForwardLoss (loveTrain mll stepF n p0).2 = n ∧
      countEv isBackprop (loveTrain mll stepF n p0).2 = n ∧
      countEv isOptStep (loveTrain mll stepF n p0).2 = n) ∧
    ((dklTrain mllD stepD epoch batches q0).1.steps = batches.length ∧
      countEv isZeroGrad (dklTrain mllD stepD epoch batches q0).2 = batches.length ∧
      countEv isForwardLoss (dklTrain mllD stepD epoch batches q0).2 = batches.length ∧
      countEv isBackprop (dklTrain mllD stepD epoch batches q0).2 = batches.length ∧
      countEv isOptStep (dklTrain mllD stepD epoch batches q0).2 = batches.length) := by
  obtain ⟨h1, h2, h3, h4, h5, _⟩ := loveTrainFrom_counts mll stepF n n 0 ⟨p0, false, 0⟩
  obtain ⟨g1, g2, g3, g4, g5, _⟩ :=
    dklGo_counts mllD stepD epoch batches.length batches 0 ⟨q0, false, 0⟩
  rw [loveTrain, dklTrain]
  exact ⟨⟨by simpa using h1, h2, h3, h4, h5⟩, by simpa using g1, g2, g3, g4, g5⟩

/-- Claim C8, counterexample: the claim says a progress line is printed for
every iteration of the training loop, but the DKL loop prints only when
`(batch_idx + 1) % 50 == 0`.  A one-batch epoch runs one full iteration
(one optimizer step) and prints nothing. -/
theorem c8_counterexample :
    countEv isOptStep (dklTrain (fun _ _ : ℚ => (0 : ℚ)) id 1 [(0 : ℚ)] 0).2 = 1 ∧
      countEv isProgressLine (dklTrain (fun _ _ : ℚ => (0 : ℚ)) id 1 [(0 : ℚ)] 0).2 = 0 := by
  constructor <;> rfl

/-- Claim C8 (amended): the LOVE notebook's `train(n)` prints exactly one
progress line per iteration, and that line carries the 1-based iteration
index, the total iteration count `n` and the loss computed that iteration;
the DKL notebook's `train(epoch)` prints a progress line only on every 50th
batch (when `(batch_idx + 1) % 50 == 0`). -/
theorem c8_progress_lines {P Q B : Type} (mll : P → ℚ) (stepF : P → P)
    (n : ℕ) (p0 : P) (mllD : Q → B → ℚ) (stepD : Q → Q) (epoch : ℕ)
    (batches : List B) (q0 : Q) :
    ((loveTrain mll stepF n p0).2.filter isProgressLine =
        (List.range n).map
          (fun j => Ev.printLoss (j + 1) n (-1 * mll (stepF^[j] p0))) ∧
      countEv isProgressLine (loveTrain mll stepF n p0).2 = n) ∧
    countEv isProgressLine (dklTrain mllD stepD epoch batches q0).2 =
      (List.range batches.length).countP (fun j => (j + 1) % 50 == 0) := by
  refine ⟨⟨?_, (loveTrainFrom_counts mll stepF n n 0 ⟨p0, false, 0⟩).2.2.2.2.2⟩, ?_⟩
  · have h := loveTrainFrom_filter mll stepF n n 0 ⟨p0, false, 0⟩
    rw [loveTrain, h]
    apply List.map_congr_left
    intro j _
    congr 1
    omega
  · have h := (dklGo_counts mllD stepD epoch batches.length batches 0 ⟨q0, false, 0⟩).2.2.2.2.2
    rw [dklTrain, h]
    apply List.countP_congr
    intro j _
    constructor <;> (intro hj; simpa [Nat.zero_add] using hj)

/-! ## Checkpointing (deep-kernel-learning.ipynb, cell-24)

The epoch loop writes:
```
    stat_dict = model.state_dict()
    likelihood_state_dict = likelihood.state_dict()
    torch.save(
        ...'model': state_dict,
           'likelihood': likelihood_state_dict...,
        'dkl_cifar_checkpoint.dat',
    )
```
The assignment binds the name `stat_dict`, but the dict passed to
`torch.save` reads the name `state_dict`, which is bound nowhere in the
notebook; evaluating the dict literal therefore raises a `NameError` at
runtime.  The save is embedded as a lookup of the referenced names in the
local Python environment the loop has built. -/

/-- The checkpoint path of cell-24. -/
def checkpointPath : String := "dkl_cifar_checkpoint.dat"

/-- The local bindings in scope when `torch.save` is evaluated: the two
assignments of cell-24, with parameter blobs abstract in `α`. -/
def epochLocals {α : Type} (modelState likState : α) : List (String × α) :=
  [("stat_dict", modelState), ("likelihood_state_dict", likState)]

/-- Python name resolution: an unbound name raises `NameError`. -/
def lookupVar {α : Type} (env : List (String × α)) (name : String) :
    Except String α :=
  match env.find? (fun p => p.1 == name) with
  | some p => Except.ok p.2
  | none => Except.error ("NameError: name " ++ name ++ " is not defined")

/-- The dict literal passed to `torch.save`: the two named parameter groups
`model` (read from the name `state_dict`) and `likelihood` (read from
`likelihood_state_dict`). -/
def checkpointPayload {α : Type} (env : List (String × α)) :
    Except String (List (String × α)) := do
  let m ← lookupVar env "state_dict"
  let l ← lookupVar env "likelihood_state_dict"
  Except.ok [("model", m), ("likelihood", l)]

/-- The whole per-epoch checkpoint write: build the payload from the local
environment and name the destination file. -/
def saveEpochCheckpoint {α : Type} (modelState likState : α) :
    Except String (String × List (String × α)) := do
  let payload ← checkpointPayload (epochLocals modelState likState)
  Except.ok (checkpointPath, payload)

/-- Claim C4 is a code bug: the epoch loop is meant to serialize the
current model and likelihood state as the two named groups `model` and
`likelihood` into `dkl_cifar_checkpoint.dat`, but cell-24 assigns
`stat_dict` and then reads the unbound name `state_dict`, so every epoch's
save raises `NameError` instead of writing the checkpoint — for any model
and likelihood state whatsoever. -/
theorem c4_checkpoint_save_raises_nameerror {α : Type} (modelState likState : α) :
    saveEpochCheckpoint modelState likState =
      Except.error "NameError: name state_dict is not defined" := rfl

/-! ## Dataset selection (deep-kernel-learning.ipynb, cell-7)

```
if dataset == 'cifar10':
    d_func = datasets.CIFAR10 ... num_classes = 10
elif dataset == 'cifar100':
    d_func = datasets.CIFAR100 ... num_classes = 100
else:
    raise RuntimeError('dataset must be either "cifar10" or "cifar100"')
```
Both accepted branches build their loaders with `batch_size=64`. -/

/-- What cell-7 constructs for an accepted dataset name. -/
structure DataConfig : Type where
  dFuncName : String
  numClasses : ℕ
  batchSize : ℕ
deriving DecidableEq

/-- The `if/elif/else` of cell-7. -/
def selectDataset (dataset : String) : Except String DataConfig :=
  if dataset = "cifar10" then
    Except.ok ⟨"CIFAR10", 10, 64⟩
  else if dataset = "cifar100" then
    Except.ok ⟨"CIFAR100", 100, 64⟩
  else
    Except.error "dataset must be either \x22cifar10\x22 or \x22cifar100\x22"

/-- Claim C7: dataset selection raises a descriptive error exactly when the
name is outside the fixed allowed set, and for either allowed value the
configuration (loaders and class count) is built without raising:
`cifar10` yields 10 classes, `cifar100` yields 100. -/
theorem c7_dataset_selection_guard (dataset : String) :
    ((∃ e, selectDataset dataset = Except.error e) ↔
        (dataset ≠ "cifar10" ∧ dataset ≠ "cifar100")) ∧
      selectDataset "cifar10" = Except.ok ⟨"CIFAR10", 10, 64⟩ ∧
      selectDataset "cifar100" = Except.ok ⟨"CIFAR100", 100, 64⟩ := by
  refine ⟨⟨fun he => ?_, fun hne => ?_⟩, rfl, rfl⟩
  · obtain ⟨e, he⟩ := he
    by_cases h1 : dataset = "cifar10"
    · rw [selectDataset, if_pos h1] at he
      exact absurd he (by simp)
    · by_cases h2 : dataset = "cifar100"
      · rw [selectDataset, if_neg h1, if_pos h2] at he
        exact absurd he (by simp)
      · exact ⟨h1, h2⟩
  · exact ⟨"dataset must be either \x22cifar10\x22 or \x22cifar100\x22",
      by rw [selectDataset, if_neg hne.1, if_neg hne.2]⟩

/-! ## The DKL test function (deep-kernel-learning.ipynb, cell-22)

```
def test():
    model.eval()
    likelihood.eval()
    test_loss = 0
    correct = 0
    for data, target in pbar:
        with torch.no_grad():
            output = likelihood(model(data))
            pred = output.argmax()
            correct += pred.eq(target.view_as(pred)).cpu().sum()
    test_loss /= len(test_loader.dataset)
    print(...)
```
No statement in the batch loop touches `test_loss`. -/

/-- The two accumulators of `test()`. -/
structure TestAcc : Type where
  testLoss : ℚ
  correct : ℕ
deriving DecidableEq

/-- The body of the batch loop: only `correct` is updated, by however many
predictions match their targets (`matches` abstracts
`pred.eq(target.view_as(pred)).cpu().sum()` on one batch). -/
def testBatchStep {β : Type} (matchCount : β → ℕ) (acc : TestAcc) (batch : β) :
    TestAcc :=
  { acc with correct := acc.correct + matchCount batch }

/-- The batch loop of `test()`, started from `test_loss = 0`, `correct = 0`. -/
def runTestLoop {β : Type} (matchCount : β → ℕ) (batches : List β) : TestAcc :=
  batches.foldl (testBatchStep matchCount) ⟨0, 0⟩

/-- `test_loss /= len(test_loader.dataset)`: the Average Loss `test()`
reports. -/
def averageLoss {β : Type} (matchCount : β → ℕ) (batches : List β)
    (datasetLen : ℕ) : ℚ :=
  (runTestLoop matchCount batches).testLoss / datasetLen

lemma runTestLoop_testLoss {β : Type} (matchCount : β → ℕ) (batches : List β) :
    (runTestLoop matchCount batches).testLoss = 0 := by
  suffices h : ∀ (acc : TestAcc),
      (batches.foldl (testBatchStep matchCount) acc).testLoss = acc.testLoss from
    h ⟨0, 0⟩
  induction batches with
  | nil => intro acc; rfl
  | cons b rest ih => intro acc; exact ih _

/-- Claim C10: in the DKL `test()` function, `test_loss` is initialized to
`0` and never updated by any batch, so the Average Loss it computes is
exactly `0` for every prediction function, batch list and test-set size. -/
theorem c10_average_loss_always_zero {β : Type} (matchCount : β → ℕ)
    (batches : List β) (datasetLen : ℕ) :
    averageLoss matchCount batches datasetLen = 0 := by
  rw [averageLoss, runTestLoop_testLoss, zero_div]

/-! ## Predictive cache and train/eval modes (gpytorch-LOVE.ipynb,
cell-24, cell-28 and cell-32)

The cache mechanism itself lives in the external gpytorch library; the
notebook only toggles modes (`model.eval()`, `likelihood.eval()`,
`cleanup()`), runs the two `fast_pred_var` prediction calls and compares
`fast_covar` with `fast_covar_cache`.  The library's cache lifecycle is
modelled from the spec's Predictive Cache contract. -/

/-- The two-state train/eval mode toggle of a model/likelihood pair. -/
inductive Mode : Type where
  | training : Mode
  | evaluating : Mode
deriving DecidableEq

/-- Modelled from the spec: the repository calls into the external
gpytorch library, whose code is not under the repository's files; per the
spec's data model, a model holds its parameter state, its train/eval mode,
and a predictive cache (the low-rank root decomposition built by the first
approximate prediction) that is "valid only while the model remains in
evaluation mode and invalidated by any transition back to training mode".
The cache is abstracted to the fast covariance it yields. -/
structure GPState (P : Type) : Type where
  params : P
  mode : Mode
  cache : Option ℚ
deriving DecidableEq

/-- Modelled from the spec: `model.train()` — enter training mode; any
transition back to training mode invalidates the predictive cache. -/
def setTrainMode {P : Type} (s : GPState P) : GPState P :=
  { s with mode := Mode.training, cache := none }

/-- Modelled from the spec: `model.eval()` — enter evaluation mode.  It
does not itself build the cache; the first approximate prediction does. -/
def setEvalMode {P : Type} (s : GPState P) : GPState P :=
  { s with mode := Mode.evaluating }

/-- `cleanup()` of gpytorch-LOVE.ipynb cell-24: `gc.collect()` and
`torch.cuda.empty_cache()` do not change the visible model state;
`model.train()` and `likelihood.train()` put the pair back into training
mode (invalidating the predictive cache). -/
def cleanup {P : Type} (s : GPState P) : GPState P :=
  setTrainMode s

/-- Modelled from the spec: one approximate prediction call under
`gpytorch.fast_pred_var()` with `max_root_decomposition_size(25)`, on the
fixed test inputs.  `covarOf` is the deterministic covariance computation
the library performs from the current parameter state (deterministic given
fixed seed and settings, per the spec).  In evaluation mode the call reuses
the predictive cache when one is present and otherwise computes the
covariance and stores it; the fast-prediction path presupposes evaluation
mode (`none` outside it). -/
def fastPredict {P : Type} (covarOf : P → ℚ) (s : GPState P) :
    Option (ℚ × GPState P) :=
  match s.mode with
  | Mode.training => none
  | Mode.evaluating =>
    match s.cache with
    | some c => some (c, s)
    | none => some (covarOf s.params, { s with cache := some (covarOf s.params) })

/-- Claim C5: the predictive cache survives only while the model stays
continuously in evaluation mode.  `cleanup()` (which calls
`model.train()`) drops the cache for every starting state — even one
holding a stale cached value — and the next evaluation-mode prediction
after `model.eval()` recomputes the covariance from the current parameter
state instead of reusing stale state. -/
theorem c5_cache_invalidated_by_train_mode {P : Type} (covarOf : P → ℚ)
    (s : GPState P) :
    (cleanup s).cache = none ∧
      fastPredict covarOf (setEvalMode (cleanup s)) =
        some (covarOf s.params,
          ⟨s.params, Mode.evaluating, some (covarOf s.params)⟩) := by
  exact ⟨rfl, rfl⟩

/-- Claim C6: with the model unchanged and kept in evaluation mode, a
second approximate prediction call returns exactly the result of the
first: whenever a `fast_pred_var` call yields `fast_covar` and a resulting
state, calling again on that state yields the same covariance and the same
state, so `fast_covar = fast_covar_cache`. -/
theorem c6_cached_prediction_identical {P : Type} (covarOf : P → ℚ)
    (s s1 : GPState P) (v1 : ℚ)
    (h : fastPredict covarOf s = some (v1, s1)) :
    fastPredict covarOf s1 = some (v1, s1) := by
  rw [fastPredict] at h
  cases hm : s.mode with
  | training => rw [hm] at h; exact absurd h (by simp)
  | evaluating =>
    rw [hm] at h
    cases hc : s.cache with
    | some c =>
      rw [hc] at h
      simp only [Option.some_inj, Prod.mk.injEq] at h
      obtain ⟨hv, hs⟩ := h
      rw [fastPredict, ← hs, hm, hc, hv]
    | none =>
      rw [hc] at h
      simp only [Option.some_inj, Prod.mk.injEq] at h
      obtain ⟨hv, hs⟩ := h
      rw [fastPredict, ← hs]
      simp only [hm, hv]

theorem c6_witness :
    fastPredict (fun p : ℚ => p * p) ⟨3, Mode.evaluating, none⟩ =
        some (9, ⟨3, Mode.evaluating, some 9⟩) ∧
      fastPredict (fun p : ℚ => p * p) ⟨3, Mode.evaluating, some 9⟩ =
        some (9, ⟨3, Mode.evaluating, some 9⟩) :=
  ⟨by norm_num [fastPredict],
    c6_cached_prediction_identical (fun p : ℚ => p * p) ⟨3, Mode.evaluating, none⟩
      ⟨3, Mode.evaluating, some 9⟩ 9 (by norm_num [fastPredict])⟩
